import Mathlib

/-!
Verification development for the stcc_backend news-and-events service.

The JavaScript sources are shallowly embedded as Lean functions:
  * `src/config/upload.js`      — media path resolver and file deletion,
  * `src/controllers/newsAndEventsController.js` — pagination, cover-image and
    gallery ("smart image update") reconciliation,
  * `src/models/NewsAndEvents.js` and its revised duplicate (`src/unnamed/part_005`)
    — datetime conversion and SQL query building,
  * `src/models/NewsAndEventsImage.js` — image-row persistence,
  * `src/middleware/validation.js`  — request body validation.

JavaScript strings are modelled as Lean `String`/`List Char`; the handful of
runtime builtins the code relies on (`String.prototype.startsWith`,
`String.prototype.includes`, `parseInt`, `path.basename`, `new URL(...).pathname`,
the ECMA-262 date-time string format accepted by `new Date`) are given explicit
executable models next to their first use.
-/

namespace Stcc


/-- Model of `String.prototype.startsWith` / a regex anchored at the start:
`isPre p s` is true when the character list `p` is a prefix of `s`. -/
def isPre : List Char → List Char → Bool
  | [], _ => true
  | _ :: _, [] => false
  | p :: ps, c :: cs => p = c && isPre ps cs

/-- Model of `String.prototype.includes`: `hasSub sub s` is true when `sub`
occurs contiguously inside `s`. -/
def hasSub (sub : List Char) : List Char → Bool
  | [] => sub.isEmpty
  | c :: tl => isPre sub (c :: tl) || hasSub sub tl

/-- Model of Node's `path.basename` on POSIX paths: trailing slashes are
stripped, then the segment after the last remaining slash is returned. -/
def basenameL (cs : List Char) : List Char :=
  ((cs.reverse.dropWhile (· = '/')).takeWhile (· ≠ '/')).reverse

/-- File-type tag passed to `getRelativePath` / `deleteFile`
(`"cover"`, `"news"`, or anything else). -/
inductive FType where
  | cover
  | news
  | other

deriving DecidableEq, Repr

/-- Test from `upload.js`: `filePath.startsWith("http://") || filePath.startsWith("https://")`. -/
def isHttpL (cs : List Char) : Bool :=
  isPre "http://".data cs || isPre "https://".data cs

/-- Model of `new URL(u).pathname` for inputs that begin with `http://` or
`https://`: the authority runs to the first `/`, `?` or `#`; an empty authority
makes the constructor throw (`none`); the pathname runs from the first `/`
to the first `?` or `#`, defaulting to `"/"`. -/
def urlPathnameL (cs : List Char) : Option (List Char) :=
  let rest? : Option (List Char) :=
    if isPre "http://".data cs then some (cs.drop 7)
    else if isPre "https://".data cs then some (cs.drop 8)
    else none
  match rest? with
  | none => none
  | some r =>
    let auth := r.takeWhile (fun c => c ≠ '/' && c ≠ '?' && c ≠ '#')
    if auth.isEmpty then none
    else
      match r.drop auth.length with
      | [] => some ['/']
      | '/' :: tl => some (('/' :: tl).takeWhile (fun c => c ≠ '?' && c ≠ '#'))
      | _ :: _ => some ['/']

/-- Tail of the uploads regex `(cover-images|news-images)\/(.+)$` from
`getRelativePath`: returns the directory capture and the `(.+)$` capture,
which must be non-empty and (since `.` excludes newlines and there is no
multiline flag) newline-free. -/
def uploadsDirAfter (m : List Char) : Option (String × List Char) :=
  if isPre "cover-images/".data m then
    let rest := m.drop 13
    if !rest.isEmpty && rest.all (· ≠ '\n') then some ("cover-images", rest) else none
  else if isPre "news-images/".data m then
    let rest := m.drop 12
    if !rest.isEmpty && rest.all (· ≠ '\n') then some ("news-images", rest) else none
  else none

/-- Attempt of the regex `\/(?:public\/)?uploads\/(cover-images|news-images)\/(.+)$`
at one fixed position (the optional `public/` group is tried greedily first,
matching the backtracking order of the JavaScript engine). -/
def uploadsAt (cs : List Char) : Option (String × List Char) :=
  if isPre "/public/uploads/".data cs then uploadsDirAfter (cs.drop 16)
  else if isPre "/uploads/".data cs then uploadsDirAfter (cs.drop 9)
  else none

/-- Leftmost match of the uploads regex: positions are tried left to right,
as `String.prototype.match` does. -/
def findUploads : List Char → Option (String × List Char)
  | [] => none
  | c :: tl =>
    match uploadsAt (c :: tl) with
    | some r => some r
    | none => findUploads tl

/-- Body of `getRelativePath` from `src/config/upload.js` (lines 116–158) on a
non-empty string, over character lists: absolute `http(s)` URLs are resolved
through the uploads regex on their pathname (URL-parse failures and
non-matching URLs are returned verbatim); strings already starting with
`/cover-images/` or `/news-images/` are returned verbatim; anything else is
reduced to its basename under the directory chosen by the file type. -/
def grpCore (cs : List Char) (t : FType) : List Char :=
  if isHttpL cs then
    match urlPathnameL cs with
    | some p =>
      match findUploads p with
      | some (dir, rest) => '/' :: (dir.data ++ '/' :: rest)
      | none => cs
    | none => cs
  else if isPre "/cover-images/".data cs || isPre "/news-images/".data cs then
    cs
  else
    match t with
    | .cover => "/cover-images/".data ++ basenameL cs
    | .news => "/news-images/".data ++ basenameL cs
    | .other => cs

/-- The function `getRelativePath(filePath, fileType)` of `src/config/upload.js`.
`none` models the JavaScript `null`/`undefined` input and the `null` returned
for the falsy empty string. -/
def getRelativePath (filePath : Option String) (t : FType) : Option String :=
  match filePath with
  | none => none
  | some s => if s = "" then none else some (String.mk (grpCore s.data t))

/-! ## Gallery-image reconciliation
(`updateNewsAndEvents`, `src/controllers/newsAndEventsController.js` lines 477–605,
with the row operations of `src/models/NewsAndEventsImage.js`). -/

/-- Row of the `news_and_events_images` table for one news item. -/
structure ImageRow where
  id : Nat
  image_url : String
  image_order : Nat

deriving DecidableEq, Repr

/-- Normalization the controller applies to each gallery reference:
`getRelativePath(img, "news")`. Image references in requests are non-empty
strings, on which `getRelativePath` always returns a string; `normNews` is that
string. -/
def normNews (s : String) : String :=
  String.mk (grpCore s.data FType.news)

/-- The list `imagesToDelete = oldImageUrls.filter((url) => !imageUrls.includes(url))`
(controller line 532). -/
def imagesToDeleteL (oldImageUrls imageUrls : List String) : List String :=
  oldImageUrls.filter (fun u => !(imageUrls.contains u))

/-- The list `imagesToAdd = imageUrls.filter((url) => !oldImageUrls.includes(url))`
(controller line 535). -/
def imagesToAddL (oldImageUrls imageUrls : List String) : List String :=
  imageUrls.filter (fun u => !(oldImageUrls.contains u))

/-- One step of the deletion loop (controller lines 561–577): the first old row
whose `image_url` equals the doomed url is looked up, and its row is deleted by
id (`NewsAndEventsImage.delete`, a `DELETE ... WHERE id = ?`). -/
def delRowStep (oldImages : List ImageRow) (rows : List ImageRow) (u : String) :
    List ImageRow :=
  match oldImages.find? (fun r => r.image_url == u) with
  | some r => rows.filter (fun r2 => r2.id != r.id)
  | none => rows

/-- The whole deletion loop, folded over `imagesToDelete`. -/
def applyDeletes (oldImages : List ImageRow) (toDel : List String)
    (rows : List ImageRow) : List ImageRow :=
  toDel.foldl (delRowStep oldImages) rows

/-- Rows inserted by `NewsAndEventsImage.createMultiple(id, imagesToAdd)`
(model lines 64–89): one row per list entry, in order, with `image_order`
equal to the entry's position (`image.order || i` where entries are strings)
and a fresh primary key. -/
def createdRows (toAdd : List String) (freshId : Nat) : List ImageRow :=
  toAdd.enum.map (fun p => ImageRow.mk (freshId + p.1) p.2 p.1)

/-- State of the item's image table after the smart update block (controller
lines 527–605) runs with the already-normalized list `imageUrls`:
rows in `oldImageUrls \ imageUrls` are deleted one by one, rows for
`imageUrls \ oldImageUrls` are inserted, and when the new list is empty while
the old one was not, a final `deleteByNewsAndEventsId` empties the table. -/
def smartUpdateImages (oldImages : List ImageRow) (imageUrls : List String)
    (freshId : Nat) : List ImageRow :=
  let oldImageUrls := oldImages.map (·.image_url)
  let toDel := imagesToDeleteL oldImageUrls imageUrls
  let toAdd := imagesToAddL oldImageUrls imageUrls
  let afterAdd := applyDeletes oldImages toDel oldImages ++ createdRows toAdd freshId
  if imageUrls.isEmpty && !oldImageUrls.isEmpty then [] else afterAdd

/-- Urls handed to `deleteFiles(imagesToDelete, "news")` by the controller
(lines 579–591); the call is only made when `imagesToDelete` is non-empty. -/
def smartUpdateUnlinkRequests (oldImages : List ImageRow)
    (imageUrls : List String) : List String :=
  let toDel := imagesToDeleteL (oldImages.map (·.image_url)) imageUrls
  if toDel.isEmpty then [] else toDel

/-- Database operations on the image table issued by the smart update block. -/
inductive ImgDbOp where
  | delRow (id : Nat)
  | insRow (row : ImageRow)
  | delAllForItem

deriving DecidableEq, Repr

/-- Ordered list of image-table operations issued by the smart update block. -/
def smartUpdateDbOps (oldImages : List ImageRow) (imageUrls : List String)
    (freshId : Nat) : List ImgDbOp :=
  let oldImageUrls := oldImages.map (·.image_url)
  let toDel := imagesToDeleteL oldImageUrls imageUrls
  let toAdd := imagesToAddL oldImageUrls imageUrls
  (toDel.filterMap (fun u =>
      (oldImages.find? (fun r => r.image_url == u)).map (fun r => ImgDbOp.delRow r.id)))
    ++ toAdd.enum.map (fun p => ImgDbOp.insRow (ImageRow.mk (freshId + p.1) p.2 p.1))
    ++ (if imageUrls.isEmpty && !oldImageUrls.isEmpty then [ImgDbOp.delAllForItem] else [])

/-- Value of `req.body.images` as the controller sees it after JSON parsing:
absent (`undefined`, the images key not mentioned), the explicit removal signal
(`""` or `null`), or a list of image references (a body array, or the parse of
a JSON string body; a non-JSON string body reduces to a one-element list). -/
inductive BodyImages where
  | removeAll
  | refs (l : List String)

deriving DecidableEq, Repr

/-- The `imageUrls` / `shouldUpdateImages` computation of the update handler
(controller lines 477–518): uploaded files win over the body field; each
uploaded file contributes `getRelativePath(path.join("uploads/news-images", filename), "news")`;
body references are normalized one by one; `none` means `shouldUpdateImages`
stayed false. -/
def galleryImagesInput (filesImages : List String) (body : Option BodyImages) :
    Option (List String) :=
  if !filesImages.isEmpty then
    some (filesImages.map (fun fn => normNews ("uploads/news-images/" ++ fn)))
  else
    match body with
    | none => none
    | some .removeAll => some []
    | some (.refs l) => some (l.map normNews)

/-- Image-table rows after the whole update handler's gallery section, together
with the urls handed to `deleteFiles`: when `shouldUpdateImages` is false the
section is skipped entirely. -/
def updateNewsImagesResult (oldImages : List ImageRow) (filesImages : List String)
    (body : Option BodyImages) (freshId : Nat) : List ImageRow × List String :=
  match galleryImagesInput filesImages body with
  | none => (oldImages, [])
  | some urls =>
    (smartUpdateImages oldImages urls freshId, smartUpdateUnlinkRequests oldImages urls)

/-- Image-table operations issued by the whole update handler's gallery
section, together with the urls handed to `deleteFiles`. -/
def updateNewsImagesOps (oldImages : List ImageRow) (filesImages : List String)
    (body : Option BodyImages) (freshId : Nat) : List ImgDbOp × List String :=
  match galleryImagesInput filesImages body with
  | none => ([], [])
  | some urls =>
    (smartUpdateDbOps oldImages urls freshId, smartUpdateUnlinkRequests oldImages urls)

/-- Survival predicate of one deletion-loop step: row `r2` keeps its place
unless it carries the id of the first old row matching the doomed url. -/
def survivesDel (oldImages : List ImageRow) (u : String) (r2 : ImageRow) : Bool :=
  match oldImages.find? (fun r => r.image_url == u) with
  | some r => r2.id != r.id
  | none => true

/-! ## File deletion (`deleteFile` / `extractFilenameFromUrl`,
`src/config/upload.js` lines 191–287). -/

/-- The function `extractFilenameFromUrl` of `src/config/upload.js`
(lines 191–213): canonical relative paths yield their basename, non-URLs are
returned as-is, URLs yield the basename of their pathname, URL-parse failures
yield `null`. -/
def extractFilenameFromUrl (url : Option String) : Option String :=
  match url with
  | none => none
  | some u =>
    if u = "" then none
    else if isPre "/cover-images/".data u.data || isPre "/news-images/".data u.data then
      some (String.mk (basenameL u.data))
    else if !(isHttpL u.data) then some u
    else
      match urlPathnameL u.data with
      | some p => some (String.mk (basenameL p))
      | none => none

/-- Upload directory selected by `deleteFile` for a file type
(`coverImagesDir`, `newsImagesDir`, `uploadsDir`, resolved against
`src/config/../public/uploads`). -/
def dirFor (t : FType) : String :=
  match t with
  | .cover => "src/public/uploads/cover-images"
  | .news => "src/public/uploads/news-images"
  | .other => "src/public/uploads"

/-- Decision model of `deleteFile(fileUrl, fileType)` (`src/config/upload.js`
lines 216–277), parameterized by the configured base URL and by which paths
exist on disk: the result is `some p` exactly when `fs.unlink` is invoked on
path `p`, and `none` when the promise resolves without attempting a deletion.
The external-URL guard skips http(s) URLs that contain neither the base URL
nor the substring `"localhost"`. -/
def deleteFileAttempt (fileUrl : Option String) (t : FType) (baseUrl : String)
    (fsExists : String → Bool) : Option String :=
  match fileUrl with
  | none => none
  | some u =>
    if u = "" then none
    else if isHttpL u.data
        && (!(hasSub baseUrl.data u.data) && !(hasSub "localhost".data u.data)) then
      none
    else
      match extractFilenameFromUrl (some u) with
      | none => none
      | some fn =>
        if fn = "" then none
        else
          let filePath := dirFor t ++ "/" ++ fn
          if fsExists filePath then some filePath else none

/-! ## Cover-image validation and update
(`validateNewsUpdate` in `src/middleware/validation.js` lines 212–222, and the
cover branch of `updateNewsAndEvents`, controller lines 444–475). -/

/-- Value of the `cover_image` body field as the validator sees it. -/
inductive CoverBody where
  | omitted
  | nullValue
  | strVal (s : String)

deriving DecidableEq, Repr

/-- The regex test `/^https?:\/\/.+/.test(s)`: an `http://` or `https://`
scheme followed by at least one non-newline character. -/
def httpUrlTest (s : String) : Bool :=
  let chk : List Char → Bool := fun rest =>
    match rest with
    | [] => false
    | c :: _ => c ≠ '\n'
  if isPre "http://".data s.data then chk (s.data.drop 7)
  else if isPre "https://".data s.data then chk (s.data.drop 8)
  else false

/-- The custom `cover_image` validator of `validateNewsUpdate`: falsy values
and the empty string pass; any other value passes only when it is a string
matching `^https?:\/\/.+` of length at most 500. `optional()` skips the
check when the field is absent. -/
def coverImageFieldOk (b : CoverBody) : Bool :=
  match b with
  | .omitted => true
  | .nullValue => true
  | .strVal s =>
    if s = "" then true
    else if httpUrlTest s then decide (s.length ≤ 500)
    else false

/-- Response of `handleValidationErrors` restricted to the `cover_image` rule:
`some message` is the 400 response, `none` lets the request through. -/
def newsUpdateCoverValidation (b : CoverBody) : Option String :=
  if coverImageFieldOk b then none else some "Validation failed"

/-- Cover branch of `updateNewsAndEvents` when no cover file is uploaded:
first component is the url passed to `deleteFile` (if any), second is the
value stored in `updateData.cover_image` (`none` keeps the previous value
when the field was omitted, and models SQL `NULL` on explicit removal). -/
def coverUpdateViaBody (oldCover : Option String) (b : CoverBody) :
    Option String × Option String :=
  match b with
  | .omitted => (none, oldCover)
  | .nullValue =>
    ((match oldCover with
      | some oc => if oc = "" then none else some oc
      | none => none), none)
  | .strVal s =>
    if s = "" then
      ((match oldCover with
        | some oc => if oc = "" then none else some oc
        | none => none), none)
    else
      let newUrl := getRelativePath (some s) FType.cover
      ((match oldCover with
        | some oc => if oc ≠ "" ∧ some oc ≠ newUrl then some oc else none
        | none => none), newUrl)

/-! ## Datetime conversion
(`formatDateTimeForMySQL`: revised version in `src/unnamed/part_005` lines 9–65;
older duplicate in `src/models/NewsAndEvents.js` lines 9–34). -/

/-- Model of `String.prototype.trim`: leading and trailing whitespace
removed (computable by kernel reduction, unlike `String.trim`). -/
def jsTrim (s : String) : String :=
  String.mk (((s.data.dropWhile (·.isWhitespace)).reverse.dropWhile
    (·.isWhitespace)).reverse)

deriving instance DecidableEq for Except

/-- JavaScript value as the conversion functions see it. -/
inductive JsVal where
  | nullV
  | undefV
  | strV (s : String)
  | numV (n : Int)
  | boolV (b : Bool)

deriving DecidableEq, Repr

/-- The three distinct errors thrown by the revised `formatDateTimeForMySQL`:
`Expected string, got ...`, `Empty datetime string is not allowed`, and
`Invalid datetime format: ...` (the latter also wraps the internal
`Invalid date` and format-check failures rethrown by the catch block). -/
inductive DtErr where
  | notString
  | empty
  | invalid

deriving DecidableEq, Repr

/-- Two decimal digits, returning their value and the remaining input. -/
def d2p : List Char → Option (Nat × List Char)
  | a :: b :: t =>
    if a.isDigit && b.isDigit then some ((a.toNat - 48) * 10 + (b.toNat - 48), t)
    else none
  | _ => none

/-- Four decimal digits, returning their value and the remaining input. -/
def d4p : List Char → Option (Nat × List Char)
  | a :: b :: c :: d :: t =>
    if a.isDigit && b.isDigit && c.isDigit && d.isDigit then
      some ((a.toNat - 48) * 1000 + (b.toNat - 48) * 100
        + (c.toNat - 48) * 10 + (d.toNat - 48), t)
    else none
  | _ => none

/-- Expect one fixed character. -/
def expectChar (c : Char) : List Char → Option (List Char)
  | x :: t => if x = c then some t else none
  | [] => none

/-- Test of the regex `^\d{4}-\d{2}-\d{2} \d{2}:\d{2}:\d{2}$` used both as the
already-MySQL-format shortcut and as the final format check. -/
def isMysqlDT (s : String) : Bool :=
  (do
    let (_, r1) ← d4p s.data
    let r2 ← expectChar '-' r1
    let (_, r3) ← d2p r2
    let r4 ← expectChar '-' r3
    let (_, r5) ← d2p r4
    let r6 ← expectChar ' ' r5
    let (_, r7) ← d2p r6
    let r8 ← expectChar ':' r7
    let (_, r9) ← d2p r8
    let r10 ← expectChar ':' r9
    let (_, r11) ← d2p r10
    if r11.isEmpty then some () else none : Option Unit).isSome

/-- Calendar date/time components (UTC). -/
structure DatePt where
  y : Nat
  mo : Nat
  d : Nat
  h : Nat
  mi : Nat
  s : Nat

deriving DecidableEq, Repr

/-- Gregorian leap-year rule. -/
def isLeap (y : Nat) : Bool :=
  (y % 4 = 0 && y % 100 ≠ 0) || y % 400 = 0

/-- Days in a month of a given year. -/
def daysInMonth (y mo : Nat) : Nat :=
  if mo = 2 then (if isLeap y then 29 else 28)
  else if mo = 4 ∨ mo = 6 ∨ mo = 9 ∨ mo = 11 then 30
  else 31

/-- Range check performed by the engine's ISO date parser: out-of-range
components make `new Date(...)` an Invalid Date. -/
def validDatePt (p : DatePt) : Bool :=
  1 ≤ p.mo && p.mo ≤ 12 && 1 ≤ p.d && p.d ≤ daysInMonth p.y p.mo
    && p.h ≤ 23 && p.mi ≤ 59 && p.s ≤ 59

/-- Optional `:SS[.frac]` tail of the time part. -/
def parseSecFrac : List Char → Option (Nat × List Char)
  | ':' :: r =>
    (d2p r).bind (fun q =>
      match q.2 with
      | '.' :: r3 =>
        let ds := r3.takeWhile (·.isDigit)
        if ds.isEmpty then none else some (q.1, r3.drop ds.length)
      | r2 => some (q.1, r2))
  | r => some (0, r)

/-- Accepts the end of a date-time string: nothing, or a trailing `Z`. -/
def parseEndZ : List Char → Bool
  | [] => true
  | ['Z'] => true
  | _ => false

/-- Model of `new Date(string)` parsing restricted to the formats this service
receives: the ECMA-262 date-time string format `YYYY-MM-DD[THH:MM[:SS[.f+]]][Z]`
plus the engine's space-separated fallback `YYYY-MM-DD HH:MM[:SS]`, with
calendar-validity checking. Numeric timezone offsets and non-ISO fallbacks are
outside the model; the server is assumed to run in UTC, so local and UTC
component getters agree. -/
def jsParseDate (str : String) : Option DatePt := do
  let (y, r1) ← d4p str.data
  let r2 ← expectChar '-' r1
  let (mo, r3) ← d2p r2
  let r4 ← expectChar '-' r3
  let (d, r5) ← d2p r4
  let pt ←
    match r5 with
    | [] => some (DatePt.mk y mo d 0 0 0)
    | sep :: r6 =>
      if sep = 'T' ∨ sep = ' ' then do
        let (h, r7) ← d2p r6
        let r8 ← expectChar ':' r7
        let (mi, r9) ← d2p r8
        let (sec, r10) ← parseSecFrac r9
        if parseEndZ r10 then some (DatePt.mk y mo d h mi sec) else none
      else none
  if validDatePt pt then some pt else none

/-- Padding model of `String(n).padStart(2, "0")`. -/
def pad2 (n : Nat) : String :=
  let t := toString n
  if t.length < 2 then "0" ++ t else t

/-- The template `${year}-${month}-${day} ${hours}:${minutes}:${seconds}`
(year unpadded, the rest two-digit padded). -/
def fmtParts (p : DatePt) : String :=
  toString p.y ++ "-" ++ pad2 p.mo ++ "-" ++ pad2 p.d ++ " "
    ++ pad2 p.h ++ ":" ++ pad2 p.mi ++ ":" ++ pad2 p.s

/-- The revised `formatDateTimeForMySQL` of `src/unnamed/part_005` (lines 9–65):
null/undefined pass through, non-strings throw, the trimmed empty string
throws, strings already in MySQL shape are returned as-is, anything else is
parsed and reformatted, with a final shape check. -/
def formatDateTimeForMySQL_v2 (v : JsVal) : Except DtErr JsVal :=
  match v with
  | .nullV => .ok .nullV
  | .undefV => .ok .undefV
  | .strV s =>
    let trimmed := jsTrim s
    if trimmed = "" then .error .empty
    else if isMysqlDT trimmed then .ok (.strV trimmed)
    else
      match jsParseDate trimmed with
      | none => .error .invalid
      | some p =>
        let f := fmtParts p
        if isMysqlDT f then .ok (.strV f) else .error .invalid
  | _ => .error .notString

/-- The older duplicate `formatDateTimeForMySQL` of `src/models/NewsAndEvents.js`
(lines 9–34) on string inputs: falsy inputs (including the empty string) are
returned unchanged; otherwise the string is parsed (no trim, no MySQL-shape
shortcut) and reformatted without a final shape check. -/
def formatDateTimeForMySQL_v1Str (s : String) : Except String String :=
  if s = "" then .ok s
  else
    match jsParseDate s with
    | none => .error "Invalid datetime format"
    | some p => .ok (fmtParts p)

/-! ## SQL query building for `findAll`
(revised version `src/unnamed/part_005` lines 95–252; older duplicate
`src/models/NewsAndEvents.js` lines 64–119). -/

/-- Digit run value in base 10. -/
def digitsVal (ds : List Char) : Nat :=
  ds.foldl (fun a c => a * 10 + (c.toNat - 48)) 0

/-- Model of JavaScript `parseInt(s, 10)` (also `parseInt(s)` on decimal
input): leading whitespace, an optional sign, then a maximal run of decimal
digits; `none` models `NaN` (no digit found). -/
def jsParseInt (s : String) : Option Int :=
  let cs := s.data.dropWhile (·.isWhitespace)
  let signed : Int × List Char :=
    match cs with
    | '-' :: r => (-1, r)
    | '+' :: r => (1, r)
    | r => (1, r)
  let ds := signed.2.takeWhile (·.isDigit)
  if ds.isEmpty then none else some (signed.1 * (digitsVal ds : Int))

/-- Value pushed into the bound-parameter array handed to `db.execute`. -/
inductive SqlParam where
  | pInt (n : Int)
  | pStr (s : String)

deriving DecidableEq, Repr

/-- Filters object handed to `NewsAndEvents.findAll` (string-valued query
filters; `limit`/`offset` are numbers computed by the controller). -/
structure NewsFilters where
  category_id : Option String
  status : Option String
  search : Option String
  date_from : Option String
  date_to : Option String
  limit : Option Int
  offset : Option Int

deriving DecidableEq, Repr

/-- JavaScript truthiness on an optional string (`undefined`, `null` and `""`
are falsy). -/
def truthyS : Option String → Option String
  | some s => if s = "" then none else some s
  | none => none

/-- The SELECT head of `findAll`, with the template literal's whitespace
normalized to single spaces. -/
def baseSelectQuery : String :=
  "SELECT n.*, c.name as category_name, c.slug as category_slug, a.name as created_by_name FROM news_and_events n LEFT JOIN categories c ON n.category_id = c.id LEFT JOIN admins a ON n.created_by = a.id WHERE 1=1"

/-- The ORDER BY clause shared by both versions. -/
def findAllOrderBy : String := " ORDER BY n.date_time DESC, n.created_at DESC"

/-- Query text and bound parameters built by the older `findAll`
(`src/models/NewsAndEvents.js` lines 64–119): every filter value, including
`limit` and `offset`, is pushed into the parameter array (`LIMIT ?` /
`OFFSET ?`). -/
def buildFindAllV1 (f : NewsFilters) : Except String (String × List SqlParam) :=
  let q0 := baseSelectQuery
  let s1 : String × List SqlParam :=
    match truthyS f.category_id with
    | some c => (q0 ++ " AND n.category_id = ?", [SqlParam.pStr c])
    | none => (q0, [])
  let s2 : String × List SqlParam :=
    match truthyS f.status with
    | some st => (s1.1 ++ " AND n.status = ?", s1.2 ++ [SqlParam.pStr st])
    | none => s1
  let s3 : String × List SqlParam :=
    match truthyS f.search with
    | some sr =>
      (s2.1 ++ " AND (n.title LIKE ? OR n.description LIKE ? OR n.location LIKE ?)",
        s2.2 ++ [SqlParam.pStr ("%" ++ sr ++ "%"), SqlParam.pStr ("%" ++ sr ++ "%"),
          SqlParam.pStr ("%" ++ sr ++ "%")])
    | none => s2
  match (match truthyS f.date_from with
    | some d =>
      (formatDateTimeForMySQL_v1Str d).map
        (fun fd => (s3.1 ++ " AND n.date_time >= ?", s3.2 ++ [SqlParam.pStr fd]))
    | none => Except.ok s3 : Except String (String × List SqlParam)) with
  | .error e => .error e
  | .ok s4 =>
    match (match truthyS f.date_to with
      | some d =>
        (formatDateTimeForMySQL_v1Str d).map
          (fun fd => (s4.1 ++ " AND n.date_time <= ?", s4.2 ++ [SqlParam.pStr fd]))
      | none => Except.ok s4 : Except String (String × List SqlParam)) with
    | .error e => .error e
    | .ok s5 =>
      let s6 : String × List SqlParam := (s5.1 ++ findAllOrderBy, s5.2)
      Except.ok (match f.limit with
        | some l =>
          if l ≠ 0 then
            let s7 : String × List SqlParam :=
              (s6.1 ++ " LIMIT ?", s6.2 ++ [SqlParam.pInt l])
            match f.offset with
            | some o =>
              if o ≠ 0 then (s7.1 ++ " OFFSET ?", s7.2 ++ [SqlParam.pInt o]) else s7
            | none => s7
          else s6
        | none => s6)

/-- WHERE/ORDER part of the revised `findAll` (`src/unnamed/part_005`
lines 97–188): category ids are parsed as integers (`NaN` throws), status and
search must be non-empty strings (search is trimmed into the LIKE pattern),
date bounds go through the revised datetime conversion (failures throw). The
two defensive runtime checks on the built parameter array (no null entries,
placeholder count) are identities in this model and are omitted. -/
def buildFindAllV2Filters (f : NewsFilters) : Except String (String × List SqlParam) :=
  match (match truthyS f.category_id with
    | some c =>
      match jsParseInt c with
      | none => Except.error "Invalid category_id"
      | some n => Except.ok ((baseSelectQuery ++ " AND n.category_id = ?",
          [SqlParam.pInt n]) : String × List SqlParam)
    | none => Except.ok ((baseSelectQuery, []) : String × List SqlParam)) with
  | .error e => .error e
  | .ok s1 =>
    let s2 : String × List SqlParam :=
      match truthyS f.status with
      | some st => (s1.1 ++ " AND n.status = ?", s1.2 ++ [SqlParam.pStr st])
      | none => s1
    let s3 : String × List SqlParam :=
      match truthyS f.search with
      | some sr =>
        (s2.1 ++ " AND (n.title LIKE ? OR n.description LIKE ? OR n.location LIKE ?)",
          s2.2 ++ [SqlParam.pStr ("%" ++ jsTrim sr ++ "%"),
            SqlParam.pStr ("%" ++ jsTrim sr ++ "%"), SqlParam.pStr ("%" ++ jsTrim sr ++ "%")])
      | none => s2
    match (match truthyS f.date_from with
      | some d =>
        if jsTrim d = "" then Except.ok s3
        else
          match formatDateTimeForMySQL_v2 (.strV d) with
          | .ok (.strV fd) =>
            Except.ok ((s3.1 ++ " AND n.date_time >= ?", s3.2 ++ [SqlParam.pStr fd])
              : String × List SqlParam)
          | _ => Except.error "Invalid date_from"
      | none => Except.ok s3 : Except String (String × List SqlParam)) with
    | .error e => .error e
    | .ok s4 =>
      match (match truthyS f.date_to with
        | some d =>
          if jsTrim d = "" then Except.ok s4
          else
            match formatDateTimeForMySQL_v2 (.strV d) with
            | .ok (.strV fd) =>
              Except.ok ((s4.1 ++ " AND n.date_time <= ?", s4.2 ++ [SqlParam.pStr fd])
                : String × List SqlParam)
            | _ => Except.error "Invalid date_to"
        | none => Except.ok s4 : Except String (String × List SqlParam)) with
      | .error e => .error e
      | .ok s5 => Except.ok (s5.1 ++ findAllOrderBy, s5.2)

/-- The ` LIMIT ${limit} OFFSET ${offset}` / ` LIMIT ${limit}` text the revised
`findAll` splices into the query (empty when no limit filter is given). -/
def limitClause (f : NewsFilters) : String :=
  match f.limit with
  | none => ""
  | some l =>
    match f.offset with
    | some o => " LIMIT " ++ toString l ++ " OFFSET " ++ toString o
    | none => " LIMIT " ++ toString l

/-- Pagination step of the revised `findAll` (`src/unnamed/part_005`
lines 190–210): `limit` and `offset` are validated (`limit ≥ 1`, `offset ≥ 0`;
an invalid value throws) and spliced into the query text — they are never
pushed into the parameter array. -/
def buildFindAllV2 (f : NewsFilters) : Except String (String × List SqlParam) :=
  match buildFindAllV2Filters f with
  | .error e => .error e
  | .ok s =>
    match f.limit with
    | none => .ok s
    | some l =>
      if l < 1 then .error "Invalid limit value"
      else
        match f.offset with
        | none => .ok (s.1 ++ " LIMIT " ++ toString l, s.2)
        | some o =>
          if o < 0 then .error "Invalid offset value"
          else .ok (s.1 ++ " LIMIT " ++ toString l ++ " OFFSET " ++ toString o, s.2)

/-! ## Listing handlers
(`getAllNewsAndEvents`, `getActiveNewsAndEvents`, `getActiveNewsAndEventsById`,
`src/controllers/newsAndEventsController.js` lines 19–225), with the
relational semantics of the SQL built by `findAll`. -/

/-- Row of the `news_and_events` table (joined columns omitted; they do not
affect filtering). -/
structure NewsRow where
  id : Nat
  category_id : Int
  title : String
  description : String
  location : String
  date_time : String
  status : String
  created_at : String

deriving DecidableEq, Repr

/-- Query parameters of the listing endpoints. -/
structure ListQuery where
  page : Option String
  limit : Option String
  category_id : Option String
  status : Option String
  search : Option String
  date_from : Option String
  date_to : Option String

deriving DecidableEq, Repr

/-- The expression `parseInt(req.query.page) || 1` (`NaN` and `0` both fall
back to the default). -/
def pageOr1 (q : Option String) : Int :=
  match q.bind jsParseInt with
  | none => 1
  | some n => if n = 0 then 1 else n

/-- The expression `parseInt(req.query.limit) || 10`. -/
def limitOr10 (q : Option String) : Int :=
  match q.bind jsParseInt with
  | none => 10
  | some n => if n = 0 then 10 else n

/-- Pagination validation shared verbatim by the two listing handlers
(controller lines 22–37 and 108–123): the parsed page and limit, or the 400
message. -/
def paginationCheck (page limit : Option String) : Except String (Int × Int) :=
  let p := pageOr1 page
  let l := limitOr10 limit
  if p < 1 then .error "Page must be greater than 0"
  else if l < 1 ∨ l > 100 then .error "Limit must be between 1 and 100"
  else .ok (p, l)

/-- Filters of the generated SQL in post-validation form: parsed category id,
non-empty status/search, converted date bounds, and the splice-ready
limit/offset. -/
structure SemFilters where
  category_id : Option Int
  status : Option String
  search : Option String
  date_from : Option String
  date_to : Option String
  limit : Option Int
  offset : Option Int

deriving DecidableEq, Repr

/-- Case-insensitive containment, the semantics of
`LIKE '%...%'` under the schema's `utf8mb4_unicode_ci` collation. -/
def likeContains (field pat : String) : Bool :=
  hasSub pat.toLower.data field.toLower.data

/-- WHERE-clause semantics of the `findAll` query on one row. DATETIME
comparison on the fixed-width `YYYY-MM-DD HH:MM:SS` form coincides with
lexicographic string comparison. -/
def rowMatches (f : SemFilters) (r : NewsRow) : Bool :=
  (match f.category_id with
    | some c => r.category_id == c
    | none => true)
  && (match f.status with
    | some st => r.status == st
    | none => true)
  && (match f.search with
    | some sr => likeContains r.title sr || likeContains r.description sr
        || likeContains r.location sr
    | none => true)
  && (match f.date_from with
    | some d => decide (d ≤ r.date_time)
    | none => true)
  && (match f.date_to with
    | some d => decide (r.date_time ≤ d)
    | none => true)

/-- Comparison behind `ORDER BY n.date_time DESC, n.created_at DESC`. -/
def rowBefore (a b : NewsRow) : Bool :=
  decide (b.date_time < a.date_time)
    || (a.date_time == b.date_time && decide (b.created_at ≤ a.created_at))

/-- Insertion step of the ordering model. -/
def insertRow (r : NewsRow) : List NewsRow → List NewsRow
  | [] => [r]
  | x :: xs => if rowBefore r x then r :: x :: xs else x :: insertRow r xs

/-- Ordering model of the ORDER BY clause (insertion sort; only membership is
used by the theorems). -/
def sortRowsDesc : List NewsRow → List NewsRow
  | [] => []
  | x :: xs => insertRow x (sortRowsDesc xs)

/-- Relational semantics of the query built by `findAll`: filter, order,
offset, limit. -/
def findAllSem (db : List NewsRow) (f : SemFilters) : List NewsRow :=
  let m := sortRowsDesc (db.filter (rowMatches f))
  match f.limit with
  | none => m
  | some l =>
    match f.offset with
    | none => m.take l.toNat
    | some o => (m.drop o.toNat).take l.toNat

/-- The `category_id` validation of the revised `findAll` applied to the raw query
value. -/
def catParse (c : Option String) : Except String (Option Int) :=
  match truthyS c with
  | none => .ok none
  | some c' =>
    match jsParseInt c' with
    | none => .error "Invalid category_id"
    | some n => .ok (some n)

/-- Status filter value: only a non-empty string adds the clause. -/
def statusFilterVal (sv : Option String) : Option String := truthyS sv

/-- Search filter value: a non-empty string is trimmed into the LIKE pattern. -/
def searchFilterVal (sv : Option String) : Option String :=
  match truthyS sv with
  | none => none
  | some sr => some (jsTrim sr)

/-- Date-bound conversion of the revised `findAll` applied to a raw query
value (conversion failures throw, surfacing as a 500). -/
def dateParse (dv : Option String) : Except String (Option String) :=
  match truthyS dv with
  | none => .ok none
  | some d =>
    if jsTrim d = "" then .ok none
    else
      match formatDateTimeForMySQL_v2 (.strV d) with
      | .ok (.strV fd) => .ok (some fd)
      | _ => .error "Invalid date"

/-- Filters object the handler passes, after `findAll`'s own validation:
`statusVal` is what the handler put into `filters.status` (the raw query value
for the admin endpoint, the constant `"active"` for the public one). -/
def toSemFilters (statusVal : Option String) (q : ListQuery) (limit offset : Int) :
    Except String SemFilters :=
  match catParse q.category_id with
  | .error e => .error e
  | .ok cat =>
    match dateParse q.date_from with
    | .error e => .error e
    | .ok df =>
      match dateParse q.date_to with
      | .error e => .error e
      | .ok dt =>
        .ok (SemFilters.mk cat (statusFilterVal statusVal) (searchFilterVal q.search)
          df dt (some limit) (some offset))

/-- Response of a listing handler: the 400 of pagination validation, the 500
of an error thrown inside the model layer, or the item list. -/
inductive ListResp where
  | badRequest (msg : String)
  | serverError
  | okList (items : List NewsRow)

deriving DecidableEq, Repr

/-- Handler of `GET /api/news-and-events` (admin listing, controller lines 19–97):
pagination is validated before any query; the status filter comes from the
request. -/
def getAllNewsList (db : List NewsRow) (q : ListQuery) : ListResp :=
  match paginationCheck q.page q.limit with
  | .error m => .badRequest m
  | .ok pl =>
    match toSemFilters q.status q (pl.2) ((pl.1 - 1) * pl.2) with
    | .error _ => .serverError
    | .ok f => .okList (findAllSem db f)

/-- Handler of `GET /api/news-and-events/public` (public listing, controller lines
105–184): identical, except `filters.status` is unconditionally `"active"`
and the request's status parameter is ignored. -/
def getActiveNewsList (db : List NewsRow) (q : ListQuery) : ListResp :=
  match paginationCheck q.page q.limit with
  | .error m => .badRequest m
  | .ok pl =>
    match toSemFilters (some "active") q (pl.2) ((pl.1 - 1) * pl.2) with
    | .error _ => .serverError
    | .ok f => .okList (findAllSem db f)

/-- Discriminator for the 400 responses. -/
def isBadRequest : ListResp → Bool
  | .badRequest _ => true
  | _ => false

/-- Response of the public by-id handler. -/
inductive IdResp where
  | notFound
  | okItem (r : NewsRow)

deriving DecidableEq, Repr

/-- The `findById` semantics: the row with the requested primary key. -/
def findByIdRow (db : List NewsRow) (i : Nat) : Option NewsRow :=
  db.find? (fun r => r.id == i)

/-- Handler of `GET /api/news-and-events/public/:id` (controller lines 191–225): 404 when
the item is missing or its status is not `"active"`. -/
def getActiveNewsById (db : List NewsRow) (i : Nat) : IdResp :=
  match findByIdRow db i with
  | none => .notFound
  | some r => if r.status ≠ "active" then .notFound else .okItem r

/-! ## Theorems -/

theorem isPre_append (p l : List Char) : isPre p (p ++ l) = true := by
  induction p with
  | nil => rfl
  | cons c cs ih => simp [isPre, ih]

theorem grpCore_ne_nil (cs : List Char) (t : FType) (h : cs ≠ []) :
    grpCore cs t ≠ [] := by
  unfold grpCore
  split
  · split
    · split
      · simp
      · exact h
    · exact h
  · split
    · exact h
    · cases t <;> simp [h]

theorem uploadsDirAfter_dir (l : List Char) (r : String × List Char)
    (h : uploadsDirAfter l = some r) :
    r.1 = "cover-images" ∨ r.1 = "news-images" := by
  unfold uploadsDirAfter at h
  split at h
  · dsimp only at h
    split at h
    · cases h; left; rfl
    · cases h
  · split at h
    · dsimp only at h
      split at h
      · cases h; right; rfl
      · cases h
    · cases h

theorem uploadsAt_dir (l : List Char) (r : String × List Char)
    (h : uploadsAt l = some r) :
    r.1 = "cover-images" ∨ r.1 = "news-images" := by
  unfold uploadsAt at h
  split at h
  · exact uploadsDirAfter_dir _ _ h
  · split at h
    · exact uploadsDirAfter_dir _ _ h
    · cases h

theorem findUploads_dir (p : List Char) (r : String × List Char)
    (h : findUploads p = some r) :
    r.1 = "cover-images" ∨ r.1 = "news-images" := by
  induction p with
  | nil => cases h
  | cons c tl ih =>
    unfold findUploads at h
    revert h
    cases hca : uploadsAt (c :: tl) with
    | some r' => intro h; cases h; exact uploadsAt_dir _ _ hca
    | none => intro h; exact ih h

theorem grpCore_fix (l : List Char) (t : FType)
    (hh : isHttpL l = false)
    (hc : (isPre "/cover-images/".data l || isPre "/news-images/".data l) = true) :
    grpCore l t = l := by
  unfold grpCore
  rw [hh, hc]
  simp

theorem grpCore_http_match (cs : List Char) (t : FType) (p : List Char)
    (dir : String) (rest : List Char)
    (hh : isHttpL cs = true) (hp : urlPathnameL cs = some p)
    (hm : findUploads p = some (dir, rest)) :
    grpCore cs t = '/' :: (dir.data ++ '/' :: rest) := by
  unfold grpCore
  rw [hh, hp]
  simp [hm]

theorem grpCore_http_nomatch (cs : List Char) (t : FType) (p : List Char)
    (hh : isHttpL cs = true) (hp : urlPathnameL cs = some p)
    (hm : findUploads p = none) :
    grpCore cs t = cs := by
  unfold grpCore
  rw [hh, hp]
  simp [hm]

theorem grpCore_http_badurl (cs : List Char) (t : FType)
    (hh : isHttpL cs = true) (hp : urlPathnameL cs = none) :
    grpCore cs t = cs := by
  unfold grpCore
  rw [hh, hp]
  simp

theorem grpCore_basename (cs : List Char) (t : FType)
    (hh : isHttpL cs = false)
    (hc : (isPre "/cover-images/".data cs || isPre "/news-images/".data cs) = false) :
    grpCore cs t = (match t with
      | .cover => "/cover-images/".data ++ basenameL cs
      | .news => "/news-images/".data ++ basenameL cs
      | .other => cs) := by
  unfold grpCore
  rw [hh, hc]
  simp

/-- Canonical outputs of `grpCore` (those produced by the uploads-regex branch
or the basename branch) start with `/cover-images/` or `/news-images/` and are
therefore returned verbatim by a second application; verbatim outputs equal the
input and are mapped to themselves again by determinism. -/
theorem grpCore_idem (cs : List Char) (t : FType) :
    grpCore (grpCore cs t) t = grpCore cs t := by
  cases hh : isHttpL cs with
  | true =>
    cases hp : urlPathnameL cs with
    | none =>
      have hg := grpCore_http_badurl cs t hh hp
      rw [hg, hg]
    | some p =>
      cases hm : findUploads p with
      | none =>
        have hg := grpCore_http_nomatch cs t p hh hp hm
        rw [hg, hg]
      | some dr =>
        obtain ⟨dir, rest⟩ := dr
        have hg := grpCore_http_match cs t p dir rest hh hp hm
        rw [hg]
        have hdir : dir = "cover-images" ∨ dir = "news-images" :=
          findUploads_dir p (dir, rest) hm
        apply grpCore_fix
        · simp [isHttpL, isPre]
        · rcases hdir with h | h <;> subst h
          · have heq : ('/' :: (("cover-images" : String).data ++ '/' :: rest)) =
                "/cover-images/".data ++ rest := by rfl
            rw [heq, isPre_append]; simp
          · have heq : ('/' :: (("news-images" : String).data ++ '/' :: rest)) =
                "/news-images/".data ++ rest := by rfl
            rw [heq, isPre_append]; simp
  | false =>
    cases hc : (isPre "/cover-images/".data cs || isPre "/news-images/".data cs) with
    | true =>
      have hg := grpCore_fix cs t hh hc
      rw [hg, hg]
    | false =>
      have hg := grpCore_basename cs t hh hc
      cases t with
      | cover =>
        simp only at hg
        rw [hg]
        apply grpCore_fix
        · simp [isHttpL, isPre]
        · rw [isPre_append]; simp
      | news =>
        simp only at hg
        rw [hg]
        apply grpCore_fix
        · simp [isHttpL, isPre]
        · rw [isPre_append]; simp
      | other =>
        simp only at hg
        rw [hg, hg]

/-- C10: `getRelativePath` is idempotent — every output it produces on a string
input (canonical `/cover-images/<file>` and `/news-images/<file>` paths,
external URLs kept verbatim, and fall-through values) is a fixed point of the
normalization at the same file type. -/
theorem getRelativePath_idem (s : String) (t : FType) (u : String)
    (h : getRelativePath (some s) t = some u) :
    getRelativePath (some u) t = some u := by
  unfold getRelativePath at h ⊢
  by_cases hs : s = ""
  · simp [hs] at h
  · simp only [hs, if_false] at h
    have hu : u = String.mk (grpCore s.data t) := by
      cases h; rfl
    have hne : grpCore s.data t ≠ [] := grpCore_ne_nil _ _ (by
      intro hnil
      apply hs
      cases s with
      | mk l => cases l with
        | nil => rfl
        | cons a as => simp at hnil)
    have hu' : u ≠ "" := by
      rw [hu]
      intro hcon
      apply hne
      have : (String.mk (grpCore s.data t)).data = ("" : String).data := by rw [hcon]
      simpa using this
    simp only [hu', if_false]
    rw [hu]
    have : (String.mk (grpCore s.data t)).data = grpCore s.data t := rfl
    rw [this, grpCore_idem]

/-- Witness for C10 at a concrete canonical path. -/
theorem getRelativePath_idem_witness :
    getRelativePath (some "/cover-images/a.jpg") FType.cover = some "/cover-images/a.jpg" ∧
    getRelativePath (some "/cover-images/a.jpg") FType.cover = some "/cover-images/a.jpg" := by
  have h : getRelativePath (some "/cover-images/a.jpg") FType.cover
      = some "/cover-images/a.jpg" := by decide
  exact ⟨h, getRelativePath_idem "/cover-images/a.jpg" FType.cover "/cover-images/a.jpg" h⟩

theorem delRowStep_eq (oldImages rows : List ImageRow) (u : String) :
    delRowStep oldImages rows u = rows.filter (survivesDel oldImages u) := by
  unfold delRowStep survivesDel
  cases h : oldImages.find? (fun r => r.image_url == u) with
  | some r => simp
  | none => simp

theorem applyDeletes_eq (oldImages : List ImageRow) (toDel : List String)
    (init : List ImageRow) :
    applyDeletes oldImages toDel init
      = init.filter (fun r2 => toDel.all (fun u => survivesDel oldImages u r2)) := by
  induction toDel generalizing init with
  | nil => simp [applyDeletes]
  | cons u us ih =>
    show applyDeletes oldImages us (delRowStep oldImages init u) = _
    rw [ih, delRowStep_eq, List.filter_filter]
    apply List.filter_congr
    intro r _
    simp [Bool.and_comm]

theorem contains_eq_true_iff (l : List String) (u : String) :
    l.contains u = true ↔ u ∈ l := by
  simp [List.contains]

theorem mem_imagesToAddL (oldUrls urls : List String) (u : String) :
    u ∈ imagesToAddL oldUrls urls ↔ u ∈ urls ∧ u ∉ oldUrls := by
  simp [imagesToAddL, List.mem_filter, List.contains]

theorem mem_imagesToDeleteL (oldUrls urls : List String) (u : String) :
    u ∈ imagesToDeleteL oldUrls urls ↔ u ∈ oldUrls ∧ u ∉ urls := by
  simp [imagesToDeleteL, List.mem_filter, List.contains]

/-- With pairwise-distinct old urls and ids, the deletion loop keeps exactly
the old rows whose url is in the new list. -/
theorem afterDelete_eq (old : List ImageRow) (urls : List String)
    (hou : (old.map (·.image_url)).Nodup)
    (hoid : (old.map (·.id)).Nodup) :
    applyDeletes old (imagesToDeleteL (old.map (·.image_url)) urls) old
      = old.filter (fun r => urls.contains r.image_url) := by
  rw [applyDeletes_eq]
  apply List.filter_congr
  intro r hr
  by_cases hmem : r.image_url ∈ urls
  · rw [(contains_eq_true_iff urls r.image_url).mpr hmem]
    rw [List.all_eq_true]
    intro u hu
    rw [mem_imagesToDeleteL] at hu
    obtain ⟨hu1, hu2⟩ := hu
    have hune : u ≠ r.image_url := by
      intro he
      subst he
      exact hu2 hmem
    unfold survivesDel
    cases hf : old.find? (fun r' => r'.image_url == u) with
    | none => rfl
    | some r' =>
      have hpr' := List.find?_some hf
      rw [beq_iff_eq] at hpr'
      have hr'mem : r' ∈ old := List.mem_of_find?_eq_some hf
      have hne : r' ≠ r := by
        intro he
        exact hune (by rw [← hpr', he])
      have hidne : r.id ≠ r'.id := by
        intro he
        exact hne (List.inj_on_of_nodup_map hoid hr'mem hr he.symm)
      simpa [bne_iff_ne] using hidne
  · have hcont : urls.contains r.image_url = false :=
      Bool.eq_false_iff.mpr (fun hc => hmem ((contains_eq_true_iff _ _).mp hc))
    rw [hcont]
    rw [Bool.eq_false_iff]
    intro hall
    rw [List.all_eq_true] at hall
    have hin : r.image_url ∈ imagesToDeleteL (old.map (·.image_url)) urls := by
      rw [mem_imagesToDeleteL]
      exact ⟨List.mem_map_of_mem _ hr, hmem⟩
    have hs := hall _ hin
    unfold survivesDel at hs
    cases hf : old.find? (fun r' => r'.image_url == r.image_url) with
    | none =>
      rw [List.find?_eq_none] at hf
      exact hf r hr (by simp)
    | some r' =>
      rw [hf] at hs
      have hpr' := List.find?_some hf
      rw [beq_iff_eq] at hpr'
      have hr'mem : r' ∈ old := List.mem_of_find?_eq_some hf
      have heq : r' = r := List.inj_on_of_nodup_map hou hr'mem hr hpr'
      subst heq
      simp at hs

theorem createdRows_map_url (toAdd : List String) (freshId : Nat) :
    (createdRows toAdd freshId).map (·.image_url) = toAdd := by
  unfold createdRows
  rw [List.map_map]
  have hcomp : ((fun r : ImageRow => r.image_url) ∘ fun p : Nat × String =>
      ImageRow.mk (freshId + p.1) p.2 p.1) = Prod.snd := by
    funext p
    rfl
  rw [hcomp, List.enum_map_snd]

theorem smartUpdateImages_nil (old : List ImageRow) (freshId : Nat) :
    smartUpdateImages old [] freshId = [] := by
  cases old with
  | nil => simp [smartUpdateImages, imagesToDeleteL, imagesToAddL, applyDeletes, createdRows]
  | cons r rs => simp [smartUpdateImages]

/-- C1 (amended): with the item's persisted rows carrying pairwise-distinct ids
and urls, and a duplicate-free normalized input list, the smart update leaves
the image table holding exactly the input set: kept entries retain their rows,
entries of the old set missing from the input are deleted, entries of the input
missing from the old set are inserted, and no url appears on two rows. -/
theorem smartUpdateImages_reconciles (old : List ImageRow) (urls : List String)
    (freshId : Nat)
    (hou : (old.map (·.image_url)).Nodup)
    (hoid : (old.map (·.id)).Nodup)
    (hn : urls.Nodup) :
    (∀ u, u ∈ (smartUpdateImages old urls freshId).map (·.image_url) ↔ u ∈ urls)
    ∧ ((smartUpdateImages old urls freshId).map (·.image_url)).Nodup
    ∧ (∀ r ∈ old, r.image_url ∈ urls → r ∈ smartUpdateImages old urls freshId)
    ∧ (∀ r ∈ old, r.image_url ∉ urls → r ∉ smartUpdateImages old urls freshId) := by
  cases urls with
  | nil =>
    rw [smartUpdateImages_nil]
    refine ⟨by simp, by simp, ?_, ?_⟩
    · intro r _ hmem
      cases hmem
    · intro r _ _
      simp
  | cons u0 us =>
    have hres : smartUpdateImages old (u0 :: us) freshId
        = old.filter (fun r => (u0 :: us).contains r.image_url)
          ++ createdRows (imagesToAddL (old.map (·.image_url)) (u0 :: us)) freshId := by
      simp only [smartUpdateImages]
      rw [afterDelete_eq old (u0 :: us) hou hoid]
      simp
    set urls := u0 :: us with hurls
    set kept := old.filter (fun r => urls.contains r.image_url) with hkept
    set added := createdRows (imagesToAddL (old.map (·.image_url)) urls) freshId
      with hadded
    have hkmap : kept.map (·.image_url)
        = (old.map (·.image_url)).filter (fun u => urls.contains u) := by
      rw [hkept, List.filter_map]
      rfl
    have hamap : added.map (·.image_url)
        = imagesToAddL (old.map (·.image_url)) urls := createdRows_map_url _ _
    have hmapres : (smartUpdateImages old urls freshId).map (·.image_url)
        = kept.map (·.image_url) ++ added.map (·.image_url) := by
      rw [hres, List.map_append]
    refine ⟨?_, ?_, ?_, ?_⟩
    · intro u
      rw [hmapres, List.mem_append, hkmap, hamap]
      constructor
      · rintro (h | h)
        · rw [List.mem_filter] at h
          exact (contains_eq_true_iff urls u).mp h.2
        · exact ((mem_imagesToAddL _ _ _).mp h).1
      · intro hu
        by_cases hold : u ∈ old.map (·.image_url)
        · left
          rw [List.mem_filter]
          exact ⟨hold, (contains_eq_true_iff urls u).mpr hu⟩
        · right
          exact (mem_imagesToAddL _ _ _).mpr ⟨hu, hold⟩
    · rw [hmapres]
      apply List.Nodup.append
      · rw [hkmap]
        exact hou.filter _
      · rw [hamap]
        exact hn.filter _
      · intro u hu1 hu2
        rw [hkmap, List.mem_filter] at hu1
        rw [hamap, mem_imagesToAddL] at hu2
        exact hu2.2 hu1.1
    · intro r hr hmem
      rw [hres, List.mem_append]
      left
      rw [List.mem_filter]
      exact ⟨hr, (contains_eq_true_iff urls r.image_url).mpr hmem⟩
    · intro r hr hmem
      rw [hres, List.mem_append]
      rintro (h | h)
      · rw [List.mem_filter] at h
        exact hmem ((contains_eq_true_iff urls r.image_url).mp h.2)
      · have hurl : r.image_url ∈ added.map (·.image_url) := List.mem_map_of_mem _ h
        rw [hamap, mem_imagesToAddL] at hurl
        exact hmem hurl.1

/-- Counterexample to C1 as stated: two distinct references that normalize to
the same canonical path are both inserted, so the persisted rows are not the
deduplicated form of the input — the url appears on two rows. -/
theorem smartUpdate_dup_counterexample :
    ((updateNewsImagesResult [] []
        (some (BodyImages.refs
          ["http://localhost:3000/uploads/news-images/x.jpg", "/news-images/x.jpg"])) 1).1.map
        (·.image_url))
      = ["/news-images/x.jpg", "/news-images/x.jpg"]
    ∧ ¬ (((updateNewsImagesResult [] []
        (some (BodyImages.refs
          ["http://localhost:3000/uploads/news-images/x.jpg", "/news-images/x.jpg"])) 1).1.map
        (·.image_url))).Nodup := by
  constructor
  · decide
  · decide

/-- Witness for C1 at a concrete update: one kept url, one added url. -/
theorem smartUpdateImages_reconciles_witness :
    ((smartUpdateImages [ImageRow.mk 1 "/news-images/a.jpg" 0]
        ["/news-images/a.jpg", "/news-images/b.jpg"] 2).map (·.image_url)).Nodup
    ∧ (∀ u, u ∈ (smartUpdateImages [ImageRow.mk 1 "/news-images/a.jpg" 0]
        ["/news-images/a.jpg", "/news-images/b.jpg"] 2).map (·.image_url)
        ↔ u ∈ ["/news-images/a.jpg", "/news-images/b.jpg"]) := by
  have h := smartUpdateImages_reconciles [ImageRow.mk 1 "/news-images/a.jpg" 0]
    ["/news-images/a.jpg", "/news-images/b.jpg"] 2 (by decide) (by decide) (by decide)
  exact ⟨h.2.1, h.1⟩

/-- C5: when the persisted url set already equals the canonical form of the
resubmitted list, both diff lists are empty, no row is deleted or inserted,
no file deletion is requested, and the table is unchanged. -/
theorem updateImages_idempotent (old : List ImageRow) (l : List String)
    (freshId : Nat)
    (hset : ∀ u, u ∈ old.map (·.image_url) ↔ u ∈ l.map normNews) :
    imagesToDeleteL (old.map (·.image_url)) (l.map normNews) = []
    ∧ imagesToAddL (old.map (·.image_url)) (l.map normNews) = []
    ∧ updateNewsImagesResult old [] (some (BodyImages.refs l)) freshId = (old, [])
    ∧ updateNewsImagesOps old [] (some (BodyImages.refs l)) freshId = ([], []) := by
  have htoDel : imagesToDeleteL (old.map (·.image_url)) (l.map normNews) = [] := by
    rw [imagesToDeleteL, List.filter_eq_nil_iff]
    intro u hu
    have hmem := (hset u).mp hu
    simp [contains_eq_true_iff, hmem]
  have htoAdd : imagesToAddL (old.map (·.image_url)) (l.map normNews) = [] := by
    rw [imagesToAddL, List.filter_eq_nil_iff]
    intro u hu
    have hmem := (hset u).mpr hu
    simp [contains_eq_true_iff, hmem]
  have hcond : ((l.map normNews).isEmpty && !(old.map (·.image_url)).isEmpty) = false := by
    cases hl : l.map normNews with
    | nil =>
      have hold : old.map (·.image_url) = [] := by
        rw [List.eq_nil_iff_forall_not_mem]
        intro u hu
        have := (hset u).mp hu
        rw [hl] at this
        cases this
      rw [hold]
      simp
    | cons a as => simp
  have hupd : smartUpdateImages old (l.map normNews) freshId = old := by
    simp only [smartUpdateImages, htoDel, htoAdd, hcond]
    simp [applyDeletes, createdRows]
  have hunlink : smartUpdateUnlinkRequests old (l.map normNews) = [] := by
    simp only [smartUpdateUnlinkRequests, htoDel]
    rfl
  have hgal : galleryImagesInput [] (some (BodyImages.refs l)) = some (l.map normNews) := rfl
  refine ⟨htoDel, htoAdd, ?_, ?_⟩
  · rw [updateNewsImagesResult, hgal]
    dsimp only
    rw [hupd, hunlink]
  · rw [updateNewsImagesOps, hgal]
    dsimp only
    rw [hunlink]
    simp only [smartUpdateDbOps, htoDel, htoAdd, hcond]
    simp

/-- Witness for C5: resubmitting the one stored canonical path changes nothing. -/
theorem updateImages_idempotent_witness :
    updateNewsImagesResult [ImageRow.mk 1 "/news-images/a.jpg" 0] []
        (some (BodyImages.refs ["/news-images/a.jpg"])) 7
      = ([ImageRow.mk 1 "/news-images/a.jpg" 0], [])
    ∧ updateNewsImagesOps [ImageRow.mk 1 "/news-images/a.jpg" 0] []
        (some (BodyImages.refs ["/news-images/a.jpg"])) 7 = ([], []) := by
  have h := updateImages_idempotent [ImageRow.mk 1 "/news-images/a.jpg" 0]
    ["/news-images/a.jpg"] 7 (by
      intro u
      have hm : List.map normNews ["/news-images/a.jpg"] = ["/news-images/a.jpg"] := by decide
      rw [hm]
      exact Iff.rfl)
  exact ⟨h.2.2.1, h.2.2.2⟩

/-- C9: a request with no uploaded gallery files and no `images` body field
skips the gallery section: no image-table operation is issued, no file deletion
is requested, and the item's rows are untouched. -/
theorem updateImages_untouched_when_absent (old : List ImageRow) (freshId : Nat) :
    updateNewsImagesOps old [] none freshId = ([], [])
    ∧ updateNewsImagesResult old [] none freshId = (old, []) := by
  constructor <;> rfl

/-- C7 (amended): an absolute http(s) URL whose pathname never matches the
uploads pattern is preserved verbatim by `getRelativePath`, and an http(s) URL
containing neither the base URL nor `"localhost"` as a substring is never
scheduled for deletion by `deleteFile`. -/
theorem external_url_preserved (u : String) (t : FType) (baseUrl : String)
    (fsExists : String → Bool)
    (hhttp : isHttpL u.data = true)
    (hbase : hasSub baseUrl.data u.data = false)
    (hlocal : hasSub "localhost".data u.data = false)
    (hnomatch : ∀ p, urlPathnameL u.data = some p → findUploads p = none) :
    getRelativePath (some u) t = some u
    ∧ deleteFileAttempt (some u) t baseUrl fsExists = none := by
  have hne : u ≠ "" := by
    intro he
    subst he
    simp [isHttpL, isPre] at hhttp
  constructor
  · have hcore : grpCore u.data t = u.data := by
      cases hp : urlPathnameL u.data with
      | none => exact grpCore_http_badurl u.data t hhttp hp
      | some p => exact grpCore_http_nomatch u.data t p hhttp hp (hnomatch p hp)
    unfold getRelativePath
    dsimp only
    rw [if_neg hne, hcore]
  · unfold deleteFileAttempt
    dsimp only
    rw [if_neg hne]
    rw [hhttp, hbase, hlocal]
    rfl

/-- Witness for C7 at a concrete external URL. -/
theorem external_url_preserved_witness :
    getRelativePath (some "https://img.example.com/photos/pic.png") FType.news
      = some "https://img.example.com/photos/pic.png"
    ∧ deleteFileAttempt (some "https://img.example.com/photos/pic.png") FType.news
        "http://localhost:3000" (fun _ => true) = none := by
  exact external_url_preserved "https://img.example.com/photos/pic.png" FType.news
    "http://localhost:3000" (fun _ => true) (by decide) (by decide) (by decide)
    (by
      intro p hp
      have hurl : urlPathnameL ("https://img.example.com/photos/pic.png").data
          = some "/photos/pic.png".data := by decide
      rw [hurl] at hp
      injection hp with hp'
      rw [← hp']
      decide)

/-- Counterexample to C7 as stated: `getRelativePath` never inspects the host,
so an external URL whose path matches the uploads pattern is rewritten rather
than preserved verbatim; and the substring-based host test in `deleteFile`
lets an external URL containing `"localhost"` in its path reach `fs.unlink`
on a local file. -/
theorem external_url_counterexample :
    getRelativePath (some "https://img.example.com/uploads/news-images/pic.png") FType.news
      = some "/news-images/pic.png"
    ∧ ("/news-images/pic.png" : String)
        ≠ "https://img.example.com/uploads/news-images/pic.png"
    ∧ hasSub ("http://localhost:3000").data
        ("https://img.example.com/uploads/news-images/pic.png").data = false
    ∧ hasSub ("localhost").data
        ("https://img.example.com/uploads/news-images/pic.png").data = false
    ∧ deleteFileAttempt (some "https://cdn.example.com/localhost/pic.png") FType.news
        "http://localhost:3000" (fun _ => true)
      = some "src/public/uploads/news-images/pic.png"
    ∧ hasSub ("http://localhost:3000").data
        ("https://cdn.example.com/localhost/pic.png").data = false := by
  refine ⟨by decide, by decide, by decide, by decide, by decide, by decide⟩

/-- C6 (amended): a `cover_image` value that passes validation and whose
normalization equals the stored cover path is treated as unchanged — nothing
is handed to `deleteFile` and the stored value is identical. -/
theorem coverUpdate_unchanged (s old : String)
    (hval : coverImageFieldOk (CoverBody.strVal s) = true)
    (hnorm : getRelativePath (some s) FType.cover = some old) :
    newsUpdateCoverValidation (CoverBody.strVal s) = none
    ∧ coverUpdateViaBody (some old) (CoverBody.strVal s) = (none, some old) := by
  have hs : s ≠ "" := by
    intro he
    subst he
    simp [getRelativePath] at hnorm
  have hold : old ≠ "" := by
    unfold getRelativePath at hnorm
    dsimp only at hnorm
    rw [if_neg hs] at hnorm
    injection hnorm with h'
    intro he
    apply grpCore_ne_nil s.data FType.cover
    · intro hnil
      apply hs
      cases s with
      | mk l =>
        cases l with
        | nil => rfl
        | cons a as => simp at hnil
    · have : (String.mk (grpCore s.data FType.cover)).data = ("" : String).data := by
        rw [h', he]
      simpa using this
  constructor
  · simp [newsUpdateCoverValidation, hval]
  · unfold coverUpdateViaBody
    dsimp only
    rw [if_neg hs]
    simp only [hnorm]
    rw [if_neg (by
      rintro ⟨-, hne⟩
      exact hne rfl)]

/-- Witness for C6: the service-hosted URL form of a stored cover path. -/
theorem coverUpdate_unchanged_witness :
    newsUpdateCoverValidation
        (CoverBody.strVal "http://localhost:3000/uploads/cover-images/c1.png") = none
    ∧ coverUpdateViaBody (some "/cover-images/c1.png")
        (CoverBody.strVal "http://localhost:3000/uploads/cover-images/c1.png")
      = (none, some "/cover-images/c1.png") := by
  exact coverUpdate_unchanged "http://localhost:3000/uploads/cover-images/c1.png"
    "/cover-images/c1.png" (by decide) (by decide)

/-- Counterexample to C6 as stated: resubmitting the stored relative path
itself fails the `cover_image` validator, so the request is rejected with a
400 validation response rather than accepted. -/
theorem coverValidator_rejects_relative_path :
    coverImageFieldOk (CoverBody.strVal "/cover-images/c1.png") = false
    ∧ newsUpdateCoverValidation (CoverBody.strVal "/cover-images/c1.png")
      = some "Validation failed" := by
  exact ⟨by decide, by decide⟩

/-- C3 (amended): the revised datetime conversion rejects whitespace-only and
empty strings, rejects number and boolean inputs, and rejects strings that
neither have the MySQL shape nor parse as a date — each with a distinct
error — and every string it accepts is returned in fixed-width
`YYYY-MM-DD HH:MM:SS` shape. -/
theorem formatDateTime_v2_spec :
    (∀ s : String, jsTrim s = "" → formatDateTimeForMySQL_v2 (.strV s) = .error .empty)
    ∧ (∀ n : Int, formatDateTimeForMySQL_v2 (.numV n) = .error .notString)
    ∧ (∀ b : Bool, formatDateTimeForMySQL_v2 (.boolV b) = .error .notString)
    ∧ (∀ s : String, jsTrim s ≠ "" → isMysqlDT (jsTrim s) = false →
        jsParseDate (jsTrim s) = none →
        formatDateTimeForMySQL_v2 (.strV s) = .error .invalid)
    ∧ (∀ (v : JsVal) (out : String),
        formatDateTimeForMySQL_v2 v = .ok (.strV out) → isMysqlDT out = true) := by
  refine ⟨?_, ?_, ?_, ?_, ?_⟩
  · intro s h
    simp [formatDateTimeForMySQL_v2, h]
  · intro n
    rfl
  · intro b
    rfl
  · intro s h1 h2 h3
    simp [formatDateTimeForMySQL_v2, h1, h2, h3]
  · intro v out h
    cases v with
    | nullV => simp [formatDateTimeForMySQL_v2] at h
    | undefV => simp [formatDateTimeForMySQL_v2] at h
    | numV n => simp [formatDateTimeForMySQL_v2] at h
    | boolV b => simp [formatDateTimeForMySQL_v2] at h
    | strV s =>
      by_cases h1 : jsTrim s = ""
      · simp [formatDateTimeForMySQL_v2, h1] at h
      · by_cases h2 : isMysqlDT (jsTrim s)
        · simp [formatDateTimeForMySQL_v2, h1, h2] at h
          rw [← h]
          exact h2
        · cases h3 : jsParseDate (jsTrim s) with
          | none => simp [formatDateTimeForMySQL_v2, h1, h2, h3] at h
          | some p =>
            by_cases h4 : isMysqlDT (fmtParts p)
            · simp [formatDateTimeForMySQL_v2, h1, h2, h3, h4] at h
              rw [← h]
              exact h4
            · simp [formatDateTimeForMySQL_v2, h1, h2, h3, h4] at h

/-- Witness for C3 at concrete inputs: the empty string, a number, garbage,
and an ISO datetime converted to MySQL shape. -/
theorem formatDateTime_v2_spec_witness :
    formatDateTimeForMySQL_v2 (.strV "") = .error .empty
    ∧ formatDateTimeForMySQL_v2 (.numV 5) = .error .notString
    ∧ formatDateTimeForMySQL_v2 (.boolV true) = .error .notString
    ∧ formatDateTimeForMySQL_v2 (.strV "not-a-date") = .error .invalid
    ∧ isMysqlDT "2025-12-04 07:22:00" = true := by
  refine ⟨?_, ?_, ?_, ?_, ?_⟩
  · exact formatDateTime_v2_spec.1 "" (by decide)
  · exact formatDateTime_v2_spec.2.1 5
  · exact formatDateTime_v2_spec.2.2.1 true
  · exact formatDateTime_v2_spec.2.2.2.1 "not-a-date" (by decide) (by decide) (by decide)
  · exact formatDateTime_v2_spec.2.2.2.2 (.strV "2025-12-04T07:22:00.000Z")
      "2025-12-04 07:22:00" (by decide)

/-- Counterexample to C3 as stated: explicitly passed `null` — a non-string
input — is returned unchanged rather than rejected; a string in MySQL shape
that is not a valid calendar date/time is accepted verbatim; and the older
duplicate conversion in `src/models/NewsAndEvents.js` returns the empty string
unchanged instead of rejecting it. -/
theorem formatDateTime_counterexample :
    formatDateTimeForMySQL_v2 JsVal.nullV = .ok JsVal.nullV
    ∧ formatDateTimeForMySQL_v2 (JsVal.strV "2025-13-45 27:61:61")
      = .ok (JsVal.strV "2025-13-45 27:61:61")
    ∧ formatDateTimeForMySQL_v1Str "" = .ok "" := by
  refine ⟨rfl, by decide, rfl⟩

/-- C4 (amended): whenever the revised `findAll` succeeds, its bound-parameter
list is exactly the one built without any limit/offset filter — limit and
offset only extend the query text, as the validated ` LIMIT .. OFFSET ..`
splice — and a present limit passed validation (`1 ≤ limit`). -/
theorem findAllV2_limit_not_bound (f : NewsFilters) (q : String) (ps : List SqlParam)
    (h : buildFindAllV2 f = .ok (q, ps)) :
    ∃ q0, buildFindAllV2 { f with limit := none, offset := none } = .ok (q0, ps)
      ∧ q = q0 ++ limitClause f
      ∧ (∀ l, f.limit = some l → 1 ≤ l) := by
  have hfe : buildFindAllV2Filters { f with limit := none, offset := none }
      = buildFindAllV2Filters f := rfl
  unfold buildFindAllV2 at h ⊢
  rw [hfe]
  cases hb : buildFindAllV2Filters f with
  | error e =>
    rw [hb] at h
    cases h
  | ok s =>
    obtain ⟨qf, pf⟩ := s
    rw [hb] at h
    dsimp only at h ⊢
    cases hl : f.limit with
    | none =>
      rw [hl] at h
      try dsimp only at h
      injection h with h'
      rw [Prod.mk.injEq] at h'
      refine ⟨qf, ?_, ?_, ?_⟩
      · rw [h'.2]
      · rw [← h'.1]
        unfold limitClause
        rw [hl, String.append_empty]
      · intro l hll
        cases hll
    | some l =>
      rw [hl] at h
      try dsimp only at h
      by_cases hl1 : l < 1
      · rw [if_pos hl1] at h
        cases h
      · rw [if_neg hl1] at h
        cases ho : f.offset with
        | none =>
          rw [ho] at h
          try dsimp only at h
          injection h with h'
          rw [Prod.mk.injEq] at h'
          refine ⟨qf, ?_, ?_, ?_⟩
          · rw [h'.2]
          · rw [← h'.1]
            unfold limitClause
            rw [hl, ho, String.append_assoc]
          · intro l' hll
            injection hll with he
            omega
        | some o =>
          rw [ho] at h
          try dsimp only at h
          by_cases ho1 : o < 0
          · rw [if_pos ho1] at h
            cases h
          · rw [if_neg ho1] at h
            injection h with h'
            rw [Prod.mk.injEq] at h'
            refine ⟨qf, ?_, ?_, ?_⟩
            · rw [h'.2]
            · rw [← h'.1]
              unfold limitClause
              rw [hl, ho]
              dsimp only
              simp [String.append_assoc]
            · intro l' hll
              injection hll with he
              omega

set_option maxRecDepth 8000 in
/-- Witness for C4: a call with `limit = 10`, `offset = 5` splices
` LIMIT 10 OFFSET 5` into the text and binds no parameter. -/
theorem findAllV2_limit_not_bound_witness :
    buildFindAllV2
        { category_id := none, status := none, search := none, date_from := none,
          date_to := none, limit := some 10, offset := some 5 }
      = .ok (baseSelectQuery ++ findAllOrderBy ++ " LIMIT 10 OFFSET 5", [])
    ∧ ∃ q0,
      buildFindAllV2
          { category_id := none, status := none, search := none, date_from := none,
            date_to := none, limit := none, offset := none }
        = .ok (q0, [])
      ∧ baseSelectQuery ++ findAllOrderBy ++ " LIMIT 10 OFFSET 5" = q0
          ++ limitClause
              { category_id := none, status := none, search := none,
                date_from := none, date_to := none, limit := some 10,
                offset := some 5 } := by
  have h : buildFindAllV2
      { category_id := none, status := none, search := none, date_from := none,
        date_to := none, limit := some 10, offset := some 5 }
      = .ok (baseSelectQuery ++ findAllOrderBy ++ " LIMIT 10 OFFSET 5", []) := by
    decide
  obtain ⟨q0, h1, h2, h3⟩ := findAllV2_limit_not_bound _ _ _ h
  exact ⟨h, q0, h1, h2⟩

/-- Counterexample to C4 as stated: the older duplicate `findAll` in
`src/models/NewsAndEvents.js` pushes the limit and offset values into the
bound-parameter list (`LIMIT ? OFFSET ?`). -/
theorem findAllV1_binds_limit :
    Except.map Prod.snd (buildFindAllV1
        { category_id := none, status := none, search := none, date_from := none,
          date_to := none, limit := some 10, offset := some 5 })
      = .ok [SqlParam.pInt 10, SqlParam.pInt 5] := by
  decide

theorem mem_insertRow (a r : NewsRow) (l : List NewsRow) :
    a ∈ insertRow r l ↔ a = r ∨ a ∈ l := by
  induction l with
  | nil => simp [insertRow]
  | cons x xs ih =>
    unfold insertRow
    by_cases h : rowBefore r x
    · rw [if_pos h]
      simp
    · rw [if_neg h]
      simp only [List.mem_cons, ih]
      tauto

theorem mem_sortRowsDesc (a : NewsRow) (l : List NewsRow) :
    a ∈ sortRowsDesc l ↔ a ∈ l := by
  induction l with
  | nil => simp [sortRowsDesc]
  | cons x xs ih =>
    unfold sortRowsDesc
    rw [mem_insertRow, ih]
    simp

theorem findAllSem_matches (db : List NewsRow) (f : SemFilters) (r : NewsRow)
    (h : r ∈ findAllSem db f) : rowMatches f r = true := by
  have hm : ∀ x : NewsRow, x ∈ sortRowsDesc (db.filter (rowMatches f)) →
      rowMatches f x = true := by
    intro x hx
    rw [mem_sortRowsDesc] at hx
    exact (List.mem_filter.mp hx).2
  unfold findAllSem at h
  dsimp only at h
  revert h
  cases f.limit with
  | none => exact hm r
  | some l =>
    cases f.offset with
    | none =>
      intro h
      exact hm r (List.take_subset _ _ h)
    | some o =>
      intro h
      exact hm r (List.drop_subset _ _ (List.take_subset _ _ h))

theorem toSemFilters_status (sv : Option String) (q : ListQuery) (l o : Int)
    (f : SemFilters) (h : toSemFilters sv q l o = .ok f) :
    f.status = statusFilterVal sv := by
  unfold toSemFilters at h
  cases h1 : catParse q.category_id with
  | error e => rw [h1] at h; cases h
  | ok cat =>
    rw [h1] at h
    cases h2 : dateParse q.date_from with
    | error e => rw [h2] at h; cases h
    | ok df =>
      rw [h2] at h
      cases h3 : dateParse q.date_to with
      | error e => rw [h3] at h; cases h
      | ok dt =>
        rw [h3] at h
        injection h with h'
        rw [← h']

theorem rowMatches_status (f : SemFilters) (r : NewsRow) (st : String)
    (hst : f.status = some st) (h : rowMatches f r = true) : r.status = st := by
  unfold rowMatches at h
  rw [hst] at h
  simp only [Bool.and_eq_true] at h
  have h2 : (r.status == st) = true := h.1.1.1.2
  exact beq_iff_eq.mp h2

/-- C8: the public listing forces the status filter to `"active"` whatever the
query says, so every returned item is active; and the public by-id handler
returns 404 for any existing item whose status is not `"active"` — no
`"inactive"` item is ever returned. -/
theorem public_endpoints_active_only :
    (∀ (db : List NewsRow) (q : ListQuery) (items : List NewsRow),
        getActiveNewsList db q = .okList items → ∀ r ∈ items, r.status = "active")
    ∧ (∀ (db : List NewsRow) (i : Nat) (r : NewsRow),
        getActiveNewsById db i = .okItem r → r.status = "active")
    ∧ (∀ (db : List NewsRow) (i : Nat) (r : NewsRow),
        findByIdRow db i = some r → r.status ≠ "active" →
        getActiveNewsById db i = .notFound) := by
  refine ⟨?_, ?_, ?_⟩
  · intro db q items h r hr
    unfold getActiveNewsList at h
    cases hpc : paginationCheck q.page q.limit with
    | error m => rw [hpc] at h; cases h
    | ok pl =>
      rw [hpc] at h
      dsimp only at h
      cases hsf : toSemFilters (some "active") q pl.2 ((pl.1 - 1) * pl.2) with
      | error e => rw [hsf] at h; cases h
      | ok f =>
        rw [hsf] at h
        injection h with h'
        rw [← h'] at hr
        have hst : f.status = some "active" := by
          rw [toSemFilters_status _ _ _ _ _ hsf]
          rfl
        exact rowMatches_status f r "active" hst (findAllSem_matches db f r hr)
  · intro db i r h
    unfold getActiveNewsById at h
    cases hf : findByIdRow db i with
    | none => rw [hf] at h; cases h
    | some r' =>
      rw [hf] at h
      dsimp only at h
      by_cases hst : r'.status ≠ "active"
      · rw [if_pos hst] at h
        cases h
      · rw [if_neg hst] at h
        injection h with h'
        rw [← h']
        exact not_ne_iff.mp hst
  · intro db i r hf hst
    unfold getActiveNewsById
    rw [hf]
    dsimp only
    rw [if_pos hst]

/-- Witness for C8: a one-item database — the public list returns the active
item, and the by-id handler hides an inactive one. -/
theorem public_endpoints_active_only_witness :
    (NewsRow.mk 1 1 "t" "" "" "2025-01-01 00:00:00" "active"
        "2025-01-01 00:00:00").status = "active"
    ∧ getActiveNewsById
        [NewsRow.mk 1 1 "t" "" "" "2025-01-01 00:00:00" "inactive"
          "2025-01-01 00:00:00"] 1 = .notFound := by
  constructor
  · exact public_endpoints_active_only.1
      [NewsRow.mk 1 1 "t" "" "" "2025-01-01 00:00:00" "active" "2025-01-01 00:00:00"]
      (ListQuery.mk none none none none none none none)
      [NewsRow.mk 1 1 "t" "" "" "2025-01-01 00:00:00" "active" "2025-01-01 00:00:00"]
      (by decide)
      (NewsRow.mk 1 1 "t" "" "" "2025-01-01 00:00:00" "active" "2025-01-01 00:00:00")
      (by decide)
  · exact public_endpoints_active_only.2.2
      [NewsRow.mk 1 1 "t" "" "" "2025-01-01 00:00:00" "inactive" "2025-01-01 00:00:00"]
      1
      (NewsRow.mk 1 1 "t" "" "" "2025-01-01 00:00:00" "inactive" "2025-01-01 00:00:00")
      (by decide) (by decide)

theorem getAllNewsList_limit_congr (db : List NewsRow) (q : ListQuery)
    (x y : Option String) (h : limitOr10 x = limitOr10 y) :
    getAllNewsList db { q with limit := x } = getAllNewsList db { q with limit := y } := by
  unfold getAllNewsList paginationCheck
  dsimp only
  rw [h]
  rfl

theorem getActiveNewsList_limit_congr (db : List NewsRow) (q : ListQuery)
    (x y : Option String) (h : limitOr10 x = limitOr10 y) :
    getActiveNewsList db { q with limit := x }
      = getActiveNewsList db { q with limit := y } := by
  unfold getActiveNewsList paginationCheck
  dsimp only
  rw [h]
  rfl

theorem getAllNewsList_page_congr (db : List NewsRow) (q : ListQuery)
    (x y : Option String) (h : pageOr1 x = pageOr1 y) :
    getAllNewsList db { q with page := x } = getAllNewsList db { q with page := y } := by
  unfold getAllNewsList paginationCheck
  dsimp only
  rw [h]
  rfl

theorem getActiveNewsList_page_congr (db : List NewsRow) (q : ListQuery)
    (x y : Option String) (h : pageOr1 x = pageOr1 y) :
    getActiveNewsList db { q with page := x }
      = getActiveNewsList db { q with page := y } := by
  unfold getActiveNewsList paginationCheck
  dsimp only
  rw [h]
  rfl

/-- C2 (amended): `limit=101` is rejected with a 400 before any query on both
listing endpoints, but `limit=0` and `page=0` are not rejected — the
`parseInt(x) || default` idiom coerces them to the defaults (limit 10,
page 1), exactly as if the parameter were omitted, and the query runs. -/
theorem pagination_boundary (db : List NewsRow) (q : ListQuery) :
    isBadRequest (getAllNewsList db { q with limit := some "101" }) = true
    ∧ isBadRequest (getActiveNewsList db { q with limit := some "101" }) = true
    ∧ getAllNewsList db { q with limit := some "0" }
      = getAllNewsList db { q with limit := none }
    ∧ getActiveNewsList db { q with limit := some "0" }
      = getActiveNewsList db { q with limit := none }
    ∧ getAllNewsList db { q with page := some "0" }
      = getAllNewsList db { q with page := none }
    ∧ getActiveNewsList db { q with page := some "0" }
      = getActiveNewsList db { q with page := none } := by
  have h101 : limitOr10 (some "101") = 101 := by decide
  have h0 : limitOr10 (some "0") = limitOr10 none := by decide
  have hp0 : pageOr1 (some "0") = pageOr1 none := by decide
  refine ⟨?_, ?_, ?_, ?_, ?_, ?_⟩
  · unfold getAllNewsList paginationCheck
    dsimp only
    rw [h101]
    by_cases hp : pageOr1 q.page < 1
    · rw [if_pos hp]
      rfl
    · rw [if_neg hp, if_pos (by norm_num : (101 : Int) < 1 ∨ (101 : Int) > 100)]
      rfl
  · unfold getActiveNewsList paginationCheck
    dsimp only
    rw [h101]
    by_cases hp : pageOr1 q.page < 1
    · rw [if_pos hp]
      rfl
    · rw [if_neg hp, if_pos (by norm_num : (101 : Int) < 1 ∨ (101 : Int) > 100)]
      rfl
  · exact getAllNewsList_limit_congr db q _ _ h0
  · exact getActiveNewsList_limit_congr db q _ _ h0
  · exact getAllNewsList_page_congr db q _ _ hp0
  · exact getActiveNewsList_page_congr db q _ _ hp0

/-- Counterexample to C2 as stated: with `limit=0` (and likewise `page=0`) the
public listing is not rejected — the handler answers 200 with the query's
result rather than a 400 validation error. -/
theorem pagination_zero_counterexample :
    getActiveNewsList
        [NewsRow.mk 1 1 "t" "" "" "2025-01-01 00:00:00" "active" "2025-01-01 00:00:00"]
        (ListQuery.mk none (some "0") none none none none none)
      = .okList
          [NewsRow.mk 1 1 "t" "" "" "2025-01-01 00:00:00" "active" "2025-01-01 00:00:00"]
    ∧ getActiveNewsList
        [NewsRow.mk 1 1 "t" "" "" "2025-01-01 00:00:00" "active" "2025-01-01 00:00:00"]
        (ListQuery.mk (some "0") none none none none none none)
      = .okList
          [NewsRow.mk 1 1 "t" "" "" "2025-01-01 00:00:00" "active" "2025-01-01 00:00:00"]
    ∧ getAllNewsList
        [NewsRow.mk 1 1 "t" "" "" "2025-01-01 00:00:00" "active" "2025-01-01 00:00:00"]
        (ListQuery.mk none (some "0") none none none none none)
      = .okList
          [NewsRow.mk 1 1 "t" "" "" "2025-01-01 00:00:00" "active" "2025-01-01 00:00:00"] := by
  refine ⟨by decide, by decide, by decide⟩

/-- Witness for C2: the rejection branch at `limit=101` on a concrete request. -/
theorem pagination_boundary_witness :
    isBadRequest (getAllNewsList []
        (ListQuery.mk none (some "101") none none none none none)) = true
    ∧ getActiveNewsList [] (ListQuery.mk none (some "0") none none none none none)
      = getActiveNewsList [] (ListQuery.mk none none none none none none none) := by
  constructor
  · exact (pagination_boundary [] (ListQuery.mk none none none none none none none)).1
  · exact (pagination_boundary [] (ListQuery.mk none none none none none none none)).2.2.2.1

end Stcc
